import Mathlib

/-!
Verification of the pypager incremental content-loading core
(`src/pypager/pager.py`), as a shallow embedding in Lean 4.

The embedding follows the Python source closely:

* `_SourceInfo` (per-source buffer state: `buffer.text`, `cursor_position`,
  `line_tokens`, `waiting_for_input_stream`)  →  `SourceInfo`.
* `handle_content` / `insert_text` / `receive_content_from_fd` /
  `receive_content_from_generator` (closures inside `Pager._on_render`)
  →  `handleContent`, `insertText`, `receiveContentFromFd`,
  `receiveContentFromGenerator`.
* The render-cycle trigger logic of `Pager._on_render` →  `onRenderTrigger`
  and `onRenderPager`.
* The session registry (`Pager.sources`, `current_source_index`,
  `add_source`, `remove_current_source`, `focus_next_source`,
  `focus_previous_source`, `display_help`, `open_file`, `current_source`)
  →  `PagerState` and the correspondingly named functions.

Python `int` values are modelled as `Int` where they may go negative
(the line-deficit counter), and as `Nat` where they are list indices.
Operations that can raise in Python (`% 0` → ZeroDivisionError, absent
dict key → KeyError, `list.remove` of an absent element → ValueError)
return `Except String _`.

The `Source` class hierarchy lives in `pypager/source.py`, which is not
part of the analysed sources; where its behaviour is needed it is
modelled from the spec (see `ChunkSource` below).
-/

namespace Pypager

/-- A style token paired with a character, as produced by `read_chunk`:
one element of a chunk of `(token, text)` pairs. -/
abbrev TokenChar (τ : Type) := τ × Char

/-- A chunk: a finite ordered sequence of style-tagged characters, as
returned by one `read_chunk()` call. -/
abbrev Chunk (τ : Type) := List (TokenChar τ)

/-- Modelled from the spec: the `Source.read_chunk()`/`eof()` contract of
`pypager/source.py` (absent from the analysed sources).  A source is the
finite ordered sequence of chunks it will ever produce; `read_chunk`
yields the next chunk (or an empty chunk when nothing is left) and
`eof()` holds exactly when the sequence is exhausted. -/
abbrev ChunkSource (τ : Type) := List (Chunk τ)

/-- Embedding of `_SourceInfo` together with its prompt_toolkit `Buffer`:
`text` is `buffer.text` (as a list of characters), `cursorPosition` is
`buffer.cursor_position`, `lineTokens` is `line_tokens` (a list of lines,
each line a list of `(token, text)` tuples; initialised to `[[]]`), and
`waitingForInputStream` is the in-flight prefetch flag. -/
structure SourceInfo (τ : Type) where
  text : List Char
  cursorPosition : Nat
  lineTokens : List (List (TokenChar τ))
  waitingForInputStream : Bool
deriving Repr

/-- The initial `_SourceInfo`: empty buffer, one open empty line, no
prefetch in flight (`_SourceInfo.__init__`). -/
def SourceInfo.initial (τ : Type) : SourceInfo τ :=
  ⟨[], 0, [[]], false⟩

/-- Accumulator threaded through `handle_content`: the `line_tokens`
list, the remaining line deficit `lines[0]`, and the `data` list of plain
characters built up so far. -/
structure HCAcc (τ : Type) where
  lineTokens : List (List (TokenChar τ))
  deficit : Int
  data : List Char
deriving Repr

/-- One iteration of the `for token_char in tokens` loop in
`handle_content`: a newline closes the current line (appends a fresh
empty line to `line_tokens`) and decrements the deficit; any other
character is appended to the currently-open (last) line.  In both cases
the plain character is appended to `data`. -/
def handleToken {τ : Type} (acc : HCAcc τ) (tc : TokenChar τ) : HCAcc τ :=
  if tc.2 = '\n' then
    ⟨acc.lineTokens ++ [[]], acc.deficit - 1, acc.data ++ [tc.2]⟩
  else
    ⟨acc.lineTokens.dropLast ++ [acc.lineTokens.getLastD [] ++ [tc]],
     acc.deficit, acc.data ++ [tc.2]⟩

/-- `handle_content(tokens)` from `Pager._on_render`: folds `handleToken`
over the chunk, starting from the current `line_tokens`, deficit and an
empty `data` list. -/
def handleContent {τ : Type} (tokens : Chunk τ) (acc : HCAcc τ) : HCAcc τ :=
  tokens.foldl handleToken acc

/-- `insert_text(list_of_fragments)` from `Pager._on_render`: replaces the
buffer document with the old text plus the fragments, keeping the cursor,
and in follow mode (`forward_forever`) moves the cursor to the end of the
new text. -/
def insertText {τ : Type} (followForever : Bool) (data : List Char)
    (info : SourceInfo τ) : SourceInfo τ :=
  { info with
    text := info.text ++ data
    cursorPosition :=
      if followForever then (info.text ++ data).length
      else info.cursorPosition }

/-- Rejoin the character content of `lineTokens` with a newline between
consecutive lines (the text/lines equivalence of §3 of the spec). -/
def joinContent {τ : Type} : List (List (TokenChar τ)) → List Char
  | [] => []
  | [l] => l.map Prod.snd
  | l :: ls => l.map Prod.snd ++ '\n' :: joinContent ls

/-- No line of `lineTokens` stores a newline terminator character. -/
def noNewlineStored {τ : Type} (lt : List (List (TokenChar τ))) : Prop :=
  ∀ l ∈ lt, ∀ tc ∈ l, tc.2 ≠ '\n'

instance {τ : Type} (lt : List (List (TokenChar τ))) :
    Decidable (noNewlineStored lt) := by
  unfold noNewlineStored; infer_instance

/-- The SourceState invariant of §3: the rejoined line content equals the
accumulated text, the line list is never empty (its last element is the
open line), and no line stores a terminator. -/
def sourceInv {τ : Type} (info : SourceInfo τ) : Prop :=
  joinContent info.lineTokens = info.text ∧
  info.lineTokens ≠ [] ∧
  noNewlineStored info.lineTokens

instance {τ : Type} [DecidableEq τ] (info : SourceInfo τ) :
    Decidable (sourceInv info) := by
  unfold sourceInv; infer_instance

/-- Processing of one chunk inside a prefetch episode: `handle_content`
on the chunk followed by `insert_text` of the returned characters
(as done by both `receive_content_from_fd` and
`receive_content_from_generator`).  Returns the updated source info and
the updated deficit. -/
def applyChunk {τ : Type} (followForever : Bool) (c : Chunk τ)
    (info : SourceInfo τ) (deficit : Int) : SourceInfo τ × Int :=
  let r := handleContent c ⟨info.lineTokens, deficit, []⟩
  (insertText followForever r.data { info with lineTokens := r.lineTokens },
   r.deficit)

/-- A whole sequence of chunks processed through the chunk handler. -/
def applyChunks {τ : Type} (followForever : Bool) (cs : List (Chunk τ))
    (info : SourceInfo τ) (deficit : Int) : SourceInfo τ × Int :=
  cs.foldl (fun p c => applyChunk followForever c p.1 p.2) (info, deficit)

/-- The viewport geometry `_on_render` reads from the host collaborator:
`window_height`, `ui_content.line_count` and `last_visible_line()`. -/
structure RenderInfo where
  windowHeight : Nat
  lineCount : Nat
  lastVisibleLine : Nat
deriving Repr, DecidableEq

/-- `lines_below_bottom = info.ui_content.line_count - info.last_visible_line()`
(a Python `int`, so modelled in `Int`). -/
def linesBelowBottom (i : RenderInfo) : Int :=
  (i.lineCount : Int) - (i.lastVisibleLine : Int)

/-- What the render-cycle trigger decides to do: nothing, or start a read
(register the fd reader / spawn the generator worker) with the recorded
initial line deficit `lines[0]`. -/
inductive RenderAction where
  | none : RenderAction
  | startRead (deficit : Int) : RenderAction
deriving Repr, DecidableEq

/-- The decision core of `Pager._on_render` for the focused source:
given the session's `forward_forever` flag, the source's
`waiting_for_input_stream` flag, its `eof()` and the (possibly absent)
render info, return the new in-flight flag and the action taken.
Mirrors lines 256-262 and 320-332 of `pager.py`: nothing happens unless
the flag is clear, the source is not at eof and render info is present;
a read starts when `lines_below_bottom < 2 * window_height` or
`forward_forever` holds, with initial deficit
`window_height * 2 - lines_below_bottom`, and then the flag is set. -/
def onRenderTrigger (followForever waiting eof : Bool)
    (info : Option RenderInfo) : Bool × RenderAction :=
  match info with
  | Option.none => (waiting, RenderAction.none)
  | Option.some i =>
    if waiting = false ∧ eof = false then
      if linesBelowBottom i < 2 * (i.windowHeight : Int) ∨ followForever then
        (true, RenderAction.startRead
          ((i.windowHeight : Int) * 2 - linesBelowBottom i))
      else (waiting, RenderAction.none)
    else (waiting, RenderAction.none)

/-- `receive_content_from_fd` (one invocation of the readiness callback):
read one chunk from the source, run `handle_content` and `insert_text`,
and when the deficit is satisfied (`lines[0] <= 0`) or the source is at
eof, deregister the reader and clear `waiting_for_input_stream`.
Returns the updated info, deficit, remaining source and whether the
reader was removed. -/
def receiveContentFromFd {τ : Type} (followForever : Bool)
    (src : ChunkSource τ) (info : SourceInfo τ) (deficit : Int) :
    SourceInfo τ × Int × ChunkSource τ × Bool :=
  let c := src.headD []
  let rest := src.tail
  let r := handleContent c ⟨info.lineTokens, deficit, []⟩
  let info2 :=
    insertText followForever r.data { info with lineTokens := r.lineTokens }
  if r.deficit ≤ 0 ∨ rest.isEmpty = true then
    ({ info2 with waitingForInputStream := false }, r.deficit, rest, true)
  else
    (info2, r.deficit, rest, false)

/-- `receive_content_from_generator` (the per-episode worker thread):
while the deficit is positive and the source is not at eof, read a chunk
and process it; on loop exit clear `waiting_for_input_stream`. -/
def receiveContentFromGenerator {τ : Type} (followForever : Bool)
    (info : SourceInfo τ) (deficit : Int) :
    ChunkSource τ → SourceInfo τ × Int × ChunkSource τ
  | [] => ({ info with waitingForInputStream := false }, deficit, [])
  | c :: cs =>
    if deficit > 0 then
      let p := applyChunk followForever c info deficit
      receiveContentFromGenerator followForever p.1 p.2 cs
    else
      ({ info with waitingForInputStream := false }, deficit, c :: cs)

/-- Embedding of the session-level `Pager` state over an arbitrary type
`α` of `Source` objects: `sources`, `current_source_index`,
`in_colon_mode`, `message`, `displaying_help`, the `_dummy_source`, and
the keys of the `source_info` mapping paired with each source's
`waiting_for_input_stream` flag. -/
structure PagerState (α : Type) where
  sources : List α
  currentSourceIndex : Nat
  inColonMode : Bool
  message : Option String
  displayingHelp : Bool
  dummySource : α
  sourceInfo : List (α × Bool)
deriving Repr

/-- The freshly constructed `Pager`: no sources, index 0, no message. -/
def PagerState.initial {α : Type} (dummy : α) : PagerState α :=
  ⟨[], 0, false, Option.none, false, dummy, []⟩

/-- `Pager.current_source`: `self.sources[self.current_source_index]`,
falling back to the dummy source on `IndexError`. -/
def currentSource {α : Type} (st : PagerState α) : α :=
  st.sources.getD st.currentSourceIndex st.dummySource

/-- Store an entry in the `source_info` dictionary (Python dict
assignment: replaces an existing binding for the key, else appends). -/
def setInfo {α : Type} [DecidableEq α] (s : α) (w : Bool) :
    List (α × Bool) → List (α × Bool)
  | [] => [(s, w)]
  | e :: es => if e.1 = s then (s, w) :: es else e :: setInfo s w es

/-- Look a source up in the `source_info` dictionary. -/
def lookupInfo {α : Type} [DecidableEq α] (s : α)
    (d : List (α × Bool)) : Option Bool :=
  (d.find? (fun e => e.1 = s)).map Prod.snd

/-- `Pager.add_source`: create and register the `_SourceInfo`
(in-flight flag initially false), append the source, and focus it. -/
def addSource {α : Type} [DecidableEq α] (s : α) (st : PagerState α) :
    PagerState α :=
  { st with
    sourceInfo := setInfo s false st.sourceInfo
    sources := st.sources ++ [s]
    currentSourceIndex := (st.sources ++ [s]).length - 1 }

/-- `Pager.focus_previous_source`:
`(current_source_index - 1) % len(sources)` (Python semantics: raises
`ZeroDivisionError` on an empty registry; otherwise the result is the
non-negative residue) and clear colon mode. -/
def focusPreviousSource {α : Type} (st : PagerState α) :
    Except String (PagerState α) :=
  if st.sources.length = 0 then Except.error "ZeroDivisionError"
  else Except.ok
    { st with
      currentSourceIndex :=
        (st.currentSourceIndex + st.sources.length - 1) % st.sources.length
      inColonMode := false }

/-- `Pager.focus_next_source`:
`(current_source_index + 1) % len(sources)` and clear colon mode. -/
def focusNextSource {α : Type} (st : PagerState α) :
    Except String (PagerState α) :=
  if st.sources.length = 0 then Except.error "ZeroDivisionError"
  else Except.ok
    { st with
      currentSourceIndex := (st.currentSourceIndex + 1) % st.sources.length
      inColonMode := false }

/-- `Pager.remove_current_source`: with more than one source, remember
the current source object, focus the previous source, then
`sources.remove(...)` the remembered object (Python `list.remove`:
removes the first occurrence, raises `ValueError` if absent); with one
source (or none) set the refusal message and change nothing else. -/
def removeCurrentSource {α : Type} [DecidableEq α] (st : PagerState α) :
    Except String (PagerState α) :=
  if 1 < st.sources.length then
    let cur := currentSource st
    match focusPreviousSource st with
    | Except.error e => Except.error e
    | Except.ok st2 =>
      if cur ∈ st2.sources then
        Except.ok { st2 with sources := st2.sources.erase cur }
      else Except.error "ValueError"
  else
    Except.ok { st with message := Option.some "Can\x27t remove the last buffer." }

/-- `Pager.open_file`: the `FileSource` constructor outcome is abstracted
as an `Except` value (the constructor itself lives in the absent
`pypager/source.py`); an `IOError` becomes the formatted message and no
source is added, otherwise the source is added (and focused). -/
def openFile {α : Type} [DecidableEq α] (construction : Except String α)
    (st : PagerState α) : PagerState α :=
  match construction with
  | Except.error e => { st with message := Option.some e }
  | Except.ok source => addSource source st

/-- `Pager.display_help`: when help is not displayed, add a fresh
`StringSource` with the help text (abstracted as `helpSource`) and set
`displaying_help`; otherwise do nothing. -/
def displayHelp {α : Type} [DecidableEq α] (helpSource : α)
    (st : PagerState α) : PagerState α :=
  if st.displayingHelp then st
  else { (addSource helpSource st) with displayingHelp := true }

/-- The guard part of `Pager._on_render` at the pager level:
`source = self.current_source`, then
`source_info = self.source_info[source]` (a `KeyError` when the source
was never registered), then the trigger on that source's
`waiting_for_input_stream` flag and `eof()`. -/
def onRenderPager {α : Type} [DecidableEq α] (eofOf : α → Bool)
    (followForever : Bool) (info : Option RenderInfo) (st : PagerState α) :
    Except String (Bool × RenderAction) :=
  let s := currentSource st
  match lookupInfo s st.sourceInfo with
  | Option.none => Except.error "KeyError"
  | Option.some w => Except.ok (onRenderTrigger followForever w (eofOf s) info)

/-! ### Lemmas about the tokenizer (`handle_content`) -/

lemma joinContent_cons {τ : Type} (l : List (TokenChar τ))
    (ls : List (List (TokenChar τ))) (h : ls ≠ []) :
    joinContent (l :: ls) = l.map Prod.snd ++ '\n' :: joinContent ls := by
  cases ls with
  | nil => exact absurd rfl h
  | cons a as => rfl

lemma joinContent_close {τ : Type} (lt : List (List (TokenChar τ)))
    (h : lt ≠ []) : joinContent (lt ++ [[]]) = joinContent lt ++ ['\n'] := by
  induction lt with
  | nil => exact absurd rfl h
  | cons l ls ih =>
    cases ls with
    | nil => simp [joinContent]
    | cons b bs =>
      rw [List.cons_append, joinContent_cons l _ (by simp),
        joinContent_cons l (b :: bs) (by simp), ih (by simp)]
      simp

lemma joinContent_appendLast {τ : Type} (lt : List (List (TokenChar τ)))
    (tc : TokenChar τ) (h : lt ≠ []) :
    joinContent (lt.dropLast ++ [lt.getLastD [] ++ [tc]]) =
      joinContent lt ++ [tc.2] := by
  induction lt with
  | nil => exact absurd rfl h
  | cons l ls ih =>
    cases ls with
    | nil => simp [joinContent]
    | cons b bs =>
      have hd : (l :: b :: bs).dropLast = l :: (b :: bs).dropLast := by simp
      have hg : (l :: b :: bs).getLastD [] = (b :: bs).getLastD [] := by
        simp [List.getLastD_cons]
      rw [hd, hg, List.cons_append,
        joinContent_cons l _ (by simp),
        joinContent_cons l (b :: bs) (by simp), ih (by simp)]
      simp

lemma noNewlineStored_close {τ : Type} (lt : List (List (TokenChar τ)))
    (h : noNewlineStored lt) : noNewlineStored (lt ++ [[]]) := by
  intro l hl tc htc
  rcases List.mem_append.1 hl with h1 | h1
  · exact h l h1 tc htc
  · simp at h1
    subst h1
    simp at htc

lemma getLastD_mem {α : Type} :
    ∀ (l : List α), l ≠ [] → ∀ d : α, l.getLastD d ∈ l := by
  intro l
  induction l with
  | nil => intro hne; exact absurd rfl hne
  | cons a as ih =>
    intro _ d
    rw [List.getLastD_cons]
    cases as with
    | nil => simp [List.getLastD]
    | cons b bs => exact List.mem_cons_of_mem a (ih (by simp) a)

lemma noNewlineStored_appendLast {τ : Type} (lt : List (List (TokenChar τ)))
    (tc : TokenChar τ) (hlt : lt ≠ []) (h : noNewlineStored lt)
    (htc : tc.2 ≠ '\n') :
    noNewlineStored (lt.dropLast ++ [lt.getLastD [] ++ [tc]]) := by
  intro l hl p hp
  rcases List.mem_append.1 hl with h1 | h1
  · exact h l (List.dropLast_subset lt h1) p hp
  · have h1' : l = lt.getLastD [] ++ [tc] := by simpa using h1
    subst h1'
    rcases List.mem_append.1 hp with h2 | h2
    · exact h (lt.getLastD []) (getLastD_mem lt hlt []) p h2
    · have h2' : p = tc := by simpa using h2
      subst h2'
      exact htc

lemma handleToken_spec {τ : Type} (acc : HCAcc τ) (tc : TokenChar τ)
    (h : acc.lineTokens ≠ []) :
    (handleToken acc tc).lineTokens ≠ [] ∧
    joinContent (handleToken acc tc).lineTokens =
      joinContent acc.lineTokens ++ [tc.2] ∧
    (handleToken acc tc).data = acc.data ++ [tc.2] ∧
    (noNewlineStored acc.lineTokens →
      noNewlineStored (handleToken acc tc).lineTokens) := by
  by_cases hnl : tc.2 = '\n'
  · have e1 : handleToken acc tc =
        ⟨acc.lineTokens ++ [[]], acc.deficit - 1, acc.data ++ [tc.2]⟩ := by
      unfold handleToken
      rw [if_pos hnl]
    rw [e1]
    refine ⟨by simp, ?_, rfl, noNewlineStored_close _⟩
    show joinContent (acc.lineTokens ++ [[]]) = _
    rw [joinContent_close _ h, hnl]
  · have e2 : handleToken acc tc =
        ⟨acc.lineTokens.dropLast ++ [acc.lineTokens.getLastD [] ++ [tc]],
         acc.deficit, acc.data ++ [tc.2]⟩ := by
      unfold handleToken
      rw [if_neg hnl]
    rw [e2]
    exact ⟨by simp, joinContent_appendLast _ _ h, rfl,
      fun hn => noNewlineStored_appendLast _ _ h hn hnl⟩

lemma handleContent_spec {τ : Type} (tokens : Chunk τ) (acc : HCAcc τ)
    (h : acc.lineTokens ≠ []) :
    (handleContent tokens acc).lineTokens ≠ [] ∧
    joinContent (handleContent tokens acc).lineTokens =
      joinContent acc.lineTokens ++ tokens.map Prod.snd ∧
    (handleContent tokens acc).data = acc.data ++ tokens.map Prod.snd ∧
    (noNewlineStored acc.lineTokens →
      noNewlineStored (handleContent tokens acc).lineTokens) := by
  induction tokens generalizing acc with
  | nil => simpa [handleContent] using h
  | cons t ts ih =>
    have hstep := handleToken_spec acc t h
    have hrec := ih (handleToken acc t) hstep.1
    refine ⟨hrec.1, ?_, ?_, fun hn => hrec.2.2.2 (hstep.2.2.2 hn)⟩
    · rw [handleContent, List.foldl_cons, ← handleContent, hrec.2.1,
        hstep.2.1]
      simp
    · rw [handleContent, List.foldl_cons, ← handleContent, hrec.2.2.1,
        hstep.2.2.1]
      simp

/-- The deficit decreases by exactly the number of newline terminators in
the processed tokens. -/
lemma handleContent_deficit {τ : Type} (tokens : Chunk τ) (acc : HCAcc τ) :
    (handleContent tokens acc).deficit =
      acc.deficit - (tokens.filter (fun tc => tc.2 = '\n')).length := by
  induction tokens generalizing acc with
  | nil => simp [handleContent]
  | cons t ts ih =>
    rw [handleContent, List.foldl_cons, ← handleContent, ih]
    by_cases hnl : t.2 = '\n'
    · simp [handleToken, hnl, List.filter_cons]
      omega
    · simp [handleToken, hnl, List.filter_cons]

lemma applyChunk_spec {τ : Type} (followForever : Bool) (c : Chunk τ)
    (info : SourceInfo τ) (d : Int) (h : sourceInv info) :
    sourceInv (applyChunk followForever c info d).1 ∧
    (applyChunk followForever c info d).1.text =
      info.text ++ c.map Prod.snd := by
  obtain ⟨hjoin, hne, hnl⟩ := h
  have hc := handleContent_spec c ⟨info.lineTokens, d, []⟩ hne
  have hdata : (handleContent c ⟨info.lineTokens, d, []⟩).data =
      c.map Prod.snd := by
    simpa using hc.2.2.1
  refine ⟨⟨?_, hc.1, hc.2.2.2 hnl⟩, ?_⟩
  · show joinContent (handleContent c ⟨info.lineTokens, d, []⟩).lineTokens = _
    rw [hc.2.1, hjoin]
    simp [applyChunk, insertText, hdata]
  · simp [applyChunk, insertText, hdata]

/-- C1, general form: any chunk sequence processed through
`handle_content` + `insert_text` preserves the SourceState invariant and
appends exactly the chunks' character content (terminators included) to
the text. -/
lemma applyChunks_spec {τ : Type} (followForever : Bool)
    (cs : List (Chunk τ)) (info : SourceInfo τ) (d : Int)
    (h : sourceInv info) :
    sourceInv (applyChunks followForever cs info d).1 ∧
    (applyChunks followForever cs info d).1.text =
      info.text ++ (cs.map (fun c => c.map Prod.snd)).flatten := by
  induction cs generalizing info d with
  | nil => simpa [applyChunks] using h
  | cons c cs ih =>
    obtain ⟨h1, h2⟩ := applyChunk_spec followForever c info d h
    obtain ⟨h3, h4⟩ := ih (applyChunk followForever c info d).1
      (applyChunk followForever c info d).2 h1
    have estep : applyChunks followForever (c :: cs) info d =
        applyChunks followForever cs (applyChunk followForever c info d).1
          (applyChunk followForever c info d).2 := rfl
    rw [estep]
    refine ⟨h3, ?_⟩
    rw [h4, h2]
    simp

/-! ### Lemmas about the session registry -/

lemma currentSource_mem {α : Type} (st : PagerState α)
    (h : st.currentSourceIndex < st.sources.length) :
    currentSource st ∈ st.sources := by
  unfold currentSource
  rw [List.getD_eq_getElem st.sources st.dummySource h]
  exact List.getElem_mem h

lemma currentSource_nil {α : Type} (st : PagerState α)
    (h : st.sources = []) : currentSource st = st.dummySource := by
  unfold currentSource
  rw [h]
  rfl

/-- `(i - 1) % n` in Python (non-negative residue) agrees with the
`(i + n - 1) % n` used in the embedding: both equal the Euclidean
remainder of `i - 1` by `n`. -/
lemma pythonPredMod (i n : Nat) (hn : 0 < n) :
    (((i + n - 1) % n : Nat) : Int) = ((i : Int) - 1) % (n : Int) := by
  rcases Nat.eq_zero_or_pos i with h0 | h1
  · subst h0
    have e1 : (0 + n - 1) % n = n - 1 := by
      rw [Nat.zero_add]
      exact Nat.mod_eq_of_lt (by omega)
    rw [e1]
    have e2 : ((0 : Nat) : Int) - 1 = (n : Int) - 1 + (n : Int) * (-1) := by
      push_cast
      ring
    rw [e2, Int.add_mul_emod_self_left,
      Int.emod_eq_of_lt (by omega) (by omega)]
    omega
  · have e1 : i + n - 1 = (i - 1) + n := by omega
    rw [e1, Nat.add_mod_right, Int.natCast_mod]
    congr 1
    omega

/-- With more than one source and a valid focus index,
`remove_current_source` focuses the previous source (wrapping) and erases
the source that was current before the switch. -/
lemma removeCurrentSource_eq {α : Type} [DecidableEq α] (st : PagerState α)
    (hn : 1 < st.sources.length)
    (hi : st.currentSourceIndex < st.sources.length) :
    removeCurrentSource st = Except.ok
      { st with
        sources := st.sources.erase (currentSource st)
        currentSourceIndex :=
          (st.currentSourceIndex + st.sources.length - 1) % st.sources.length
        inColonMode := false } := by
  unfold removeCurrentSource focusPreviousSource
  rw [if_pos hn, if_neg (show ¬ st.sources.length = 0 by omega)]
  exact if_pos (currentSource_mem st hi)

/-! ### Claim theorems -/

/-- C1: for every SourceState satisfying the text/lines equivalence and
every sequence of chunks processed through the chunk handler
(`handle_content` + `insert_text`), the equivalence holds afterwards:
the character content of `lines`, rejoined with a newline between
consecutive lines (the last line being the open one), equals `text`;
the chunk's characters (terminators included) are appended verbatim to
`text`; and no line ever stores a newline terminator. -/
theorem C1_text_lines_equivalence {τ : Type} (followForever : Bool)
    (cs : List (Chunk τ)) (info : SourceInfo τ) (d : Int)
    (h : sourceInv info) :
    sourceInv (applyChunks followForever cs info d).1 ∧
    (applyChunks followForever cs info d).1.text =
      info.text ++ (cs.map (fun c => c.map Prod.snd)).flatten :=
  applyChunks_spec followForever cs info d h

/-- C1 witness: the spec scenario, chunks `"a\n"`, `"b\n"`, `"c"` from
the initial SourceState. -/
theorem C1_witness :
    sourceInv (applyChunks false
      [[((), 'a'), ((), '\n')], [((), 'b'), ((), '\n')], [((), 'c')]]
      (SourceInfo.initial Unit) 5).1 ∧
    (applyChunks false
      [[((), 'a'), ((), '\n')], [((), 'b'), ((), '\n')], [((), 'c')]]
      (SourceInfo.initial Unit) 5).1.text =
      (SourceInfo.initial Unit).text ++
        ([[((), 'a'), ((), '\n')], [((), 'b'), ((), '\n')], [((), 'c')]].map
          (fun c => c.map Prod.snd)).flatten :=
  C1_text_lines_equivalence false
    [[((), 'a'), ((), '\n')], [((), 'b'), ((), '\n')], [((), 'c')]]
    (SourceInfo.initial Unit) 5 (by decide)

/-- C2: at most one prefetch episode is in flight per source.  (i) When
`waiting_for_input_stream` is already set, the render trigger does
nothing (flag unchanged, no read started).  (ii) Whenever the trigger's
action is not `none`, the flag has been set (before the reader is
registered or the worker spawned).  (iii) One fd-readiness callback
clears the flag exactly when the episode ends: deficit satisfied or
source exhausted.  (iv) The generator worker returns with the flag
cleared, and only once the deficit is satisfied or the source is
exhausted. -/
theorem C2_single_prefetch_in_flight :
    (∀ (followForever eof : Bool) (info : Option RenderInfo),
      onRenderTrigger followForever true eof info =
        (true, RenderAction.none)) ∧
    (∀ (followForever waiting eof : Bool) (info : Option RenderInfo),
      (onRenderTrigger followForever waiting eof info).2 =
        RenderAction.none ∨
      (onRenderTrigger followForever waiting eof info).1 = true) ∧
    (∀ (τ : Type) (followForever : Bool) (src : ChunkSource τ)
       (text : List Char) (cur : Nat) (lt : List (List (TokenChar τ)))
       (d : Int),
      (receiveContentFromFd followForever src
          ⟨text, cur, lt, true⟩ d).1.waitingForInputStream = false ↔
      ((receiveContentFromFd followForever src
          ⟨text, cur, lt, true⟩ d).2.1 ≤ 0 ∨
       (receiveContentFromFd followForever src
          ⟨text, cur, lt, true⟩ d).2.2.1 = [])) ∧
    (∀ (τ : Type) (followForever : Bool) (info : SourceInfo τ) (d : Int)
       (src : ChunkSource τ),
      (receiveContentFromGenerator followForever info d
        src).1.waitingForInputStream = false ∧
      ((receiveContentFromGenerator followForever info d src).2.1 ≤ 0 ∨
       (receiveContentFromGenerator followForever info d src).2.2 = [])) := by
  refine ⟨?_, ?_, ?_, ?_⟩
  · intro followForever eof info
    cases info with
    | none => rfl
    | some i => simp [onRenderTrigger]
  · intro followForever waiting eof info
    cases info with
    | none => exact Or.inl rfl
    | some i =>
      simp only [onRenderTrigger]
      split_ifs with h1 h2
      · exact Or.inr rfl
      · exact Or.inl rfl
      · exact Or.inl rfl
  · intro τ followForever src text cur lt d
    simp only [receiveContentFromFd]
    split_ifs with hcond
    · simpa [List.isEmpty_iff] using hcond
    · constructor
      · intro hfalse
        exact absurd hfalse (by simp [insertText])
      · intro hend
        exact absurd hend (by simpa [List.isEmpty_iff] using hcond)
  · intro τ followForever info d src
    induction src generalizing info d with
    | nil => exact ⟨rfl, Or.inr rfl⟩
    | cons c cs ih =>
      simp only [receiveContentFromGenerator]
      split_ifs with hd
      · exact ih _ _
      · refine ⟨rfl, Or.inl ?_⟩
        show d ≤ 0
        omega

/-- C3 counterexample: with follow-forever enabled, viewport height 10
and 25 lines below the bottom, the code records a deficit of `-5`,
not the claimed minimum of 1. -/
theorem C3_counterexample :
    onRenderTrigger true false false (Option.some ⟨10, 30, 5⟩) =
      (true, RenderAction.startRead (-5)) ∧
    ¬ ((-5 : Int) = max 1 (2 * 10 - linesBelowBottom ⟨10, 30, 5⟩)) := by
  constructor
  · rfl
  · decide

/-- C3 (amended): with the focused source Idle (flag clear) and not at
eof, the trigger stays idle exactly when `linesBelowBottom ≥ 2 ×
viewportHeight` and follow-forever is off; otherwise it starts a
prefetch recording a deficit of exactly `2 × viewportHeight −
linesBelowBottom` — with no minimum clamp, so the deficit can be zero or
negative when follow-forever forces a prefetch. -/
theorem C3_prefetch_threshold (followForever : Bool) (i : RenderInfo) :
    (linesBelowBottom i < 2 * (i.windowHeight : Int) ∨ followForever = true →
      onRenderTrigger followForever false false (Option.some i) =
        (true, RenderAction.startRead
          ((i.windowHeight : Int) * 2 - linesBelowBottom i))) ∧
    (2 * (i.windowHeight : Int) ≤ linesBelowBottom i ∧ followForever = false →
      onRenderTrigger followForever false false (Option.some i) =
        (false, RenderAction.none)) := by
  constructor
  · intro hc
    cases followForever with
    | true => simp [onRenderTrigger]
    | false =>
      rcases hc with hlt | hff
      · simp [onRenderTrigger, hlt]
      · exact absurd hff (by simp)
  · intro hc
    obtain ⟨hge, hff⟩ := hc
    subst hff
    have hnlt : ¬ linesBelowBottom i < 2 * (i.windowHeight : Int) := by omega
    simp [onRenderTrigger, hnlt]

/-- C3 witness: the two spec scenarios — viewport height 10 with 5 lines
below the bottom prefetches a deficit of 15; viewport height 10 with 25
lines below the bottom (follow off) stays idle. -/
theorem C3_witness :
    onRenderTrigger false false false (Option.some ⟨10, 30, 25⟩) =
      (true, RenderAction.startRead 15) ∧
    onRenderTrigger false false false (Option.some ⟨10, 30, 5⟩) =
      (false, RenderAction.none) := by
  constructor
  · have h := (C3_prefetch_threshold false ⟨10, 30, 25⟩).1
      (Or.inl (by decide))
    rw [h]
    decide
  · exact (C3_prefetch_threshold false ⟨10, 30, 5⟩).2 ⟨by decide, rfl⟩

/-- C7: with follow-forever enabled, (a) the trigger starts a prefetch on
every render cycle where the focused source is idle (flag clear) and not
at eof, whatever the viewport geometry; (b) after every append the
cursor sits at the end of the accumulated text. -/
theorem C7_follow_forever :
    (∀ i : RenderInfo,
      onRenderTrigger true false false (Option.some i) =
        (true, RenderAction.startRead
          ((i.windowHeight : Int) * 2 - linesBelowBottom i))) ∧
    (∀ (τ : Type) (data : List Char) (info : SourceInfo τ),
      (insertText true data info).cursorPosition =
        (insertText true data info).text.length) := by
  constructor
  · intro i
    simp [onRenderTrigger]
  · intro τ data info
    simp [insertText]

/-- C4 counterexample: removing the current source from a two-source
registry focused at position 0 leaves `currentIndex = 1` on a one-source
registry — the index invariant `currentIndex < len(sources)` fails. -/
theorem C4_counterexample :
    removeCurrentSource
      (⟨[1, 2], 0, false, Option.none, false, 0,
        [(1, false), (2, false)]⟩ : PagerState Nat) =
      Except.ok
        ⟨[2], 1, false, Option.none, false, 0, [(1, false), (2, false)]⟩ ∧
    ¬ 1 < ([2] : List Nat).length := by
  exact ⟨rfl, by decide⟩

/-- C4 (amended): `addSource`, `focusNext` and `focusPrevious` always
re-establish `currentIndex < len(sources)` on a non-empty registry, and
so does `removeCurrentSource` from any focus position ≥ 1; but removing
from focus position 0 (with more than one source) leaves
`currentIndex` equal to `len(sources)` — one past the end. -/
theorem C4_index_invariant {α : Type} [DecidableEq α] :
    (∀ (s : α) (st : PagerState α),
      (addSource s st).currentSourceIndex <
        (addSource s st).sources.length) ∧
    (∀ st : PagerState α, st.sources ≠ [] → ∀ st2 : PagerState α,
      focusNextSource st = Except.ok st2 →
      st2.currentSourceIndex < st2.sources.length) ∧
    (∀ st : PagerState α, st.sources ≠ [] → ∀ st2 : PagerState α,
      focusPreviousSource st = Except.ok st2 →
      st2.currentSourceIndex < st2.sources.length) ∧
    (∀ st : PagerState α, 1 < st.sources.length →
      1 ≤ st.currentSourceIndex →
      st.currentSourceIndex < st.sources.length →
      ∀ st2 : PagerState α, removeCurrentSource st = Except.ok st2 →
      st2.currentSourceIndex < st2.sources.length) ∧
    (∀ st : PagerState α, 1 < st.sources.length →
      st.currentSourceIndex = 0 →
      ∀ st2 : PagerState α, removeCurrentSource st = Except.ok st2 →
      st2.currentSourceIndex = st2.sources.length) := by
  refine ⟨?_, ?_, ?_, ?_, ?_⟩
  · intro s st
    simp [addSource]
  · intro st hne st2 heq
    have hn : 0 < st.sources.length := List.length_pos.2 hne
    unfold focusNextSource at heq
    rw [if_neg (by omega)] at heq
    injection heq with h
    subst h
    exact Nat.mod_lt _ hn
  · intro st hne st2 heq
    have hn : 0 < st.sources.length := List.length_pos.2 hne
    unfold focusPreviousSource at heq
    rw [if_neg (by omega)] at heq
    injection heq with h
    subst h
    exact Nat.mod_lt _ hn
  · intro st hn h1 hi st2 heq
    rw [removeCurrentSource_eq st hn hi] at heq
    injection heq with h
    subst h
    have hlen : (st.sources.erase (currentSource st)).length =
        st.sources.length - 1 :=
      List.length_erase_of_mem (currentSource_mem st hi)
    show (st.currentSourceIndex + st.sources.length - 1) %
        st.sources.length < (st.sources.erase (currentSource st)).length
    rw [hlen,
      show st.currentSourceIndex + st.sources.length - 1 =
        (st.currentSourceIndex - 1) + st.sources.length by omega,
      Nat.add_mod_right, Nat.mod_eq_of_lt (by omega)]
    omega
  · intro st hn h0 st2 heq
    rw [removeCurrentSource_eq st hn (by omega)] at heq
    injection heq with h
    subst h
    have hlen : (st.sources.erase (currentSource st)).length =
        st.sources.length - 1 :=
      List.length_erase_of_mem (currentSource_mem st (by omega))
    show (st.currentSourceIndex + st.sources.length - 1) %
        st.sources.length = (st.sources.erase (currentSource st)).length
    rw [hlen, h0, Nat.zero_add, Nat.mod_eq_of_lt (by omega)]

/-- C4 witness: removing from focus position 1 of a two-source registry
leaves a valid index; adding to an empty registry gives index 0. -/
theorem C4_witness :
    (addSource 3 (PagerState.initial (0 : Nat))).currentSourceIndex <
      (addSource 3 (PagerState.initial (0 : Nat))).sources.length ∧
    (∀ st2 : PagerState Nat,
      removeCurrentSource
        (⟨[4, 5], 1, false, Option.none, false, 0,
          [(4, false), (5, false)]⟩ : PagerState Nat) = Except.ok st2 →
      st2.currentSourceIndex < st2.sources.length) :=
  ⟨C4_index_invariant.1 3 (PagerState.initial (0 : Nat)),
   fun st2 heq => C4_index_invariant.2.2.2.1
     ⟨[4, 5], 1, false, Option.none, false, 0, [(4, false), (5, false)]⟩
     (by decide) (by decide) (by decide) st2 heq⟩

/-- C5: `remove_current_source` on a one-source registry changes nothing
but the message (set to the refusal text); on a larger registry with a
valid focus it focuses the previous source (wrapping) and erases the
source that was current before the switch, leaving the message alone. -/
theorem C5_remove_last_refused {α : Type} [DecidableEq α]
    (st : PagerState α) :
    (st.sources.length = 1 →
      removeCurrentSource st = Except.ok
        { st with
          message := Option.some "Can\x27t remove the last buffer." }) ∧
    (1 < st.sources.length → st.currentSourceIndex < st.sources.length →
      removeCurrentSource st = Except.ok
        { st with
          sources := st.sources.erase (currentSource st)
          currentSourceIndex :=
            (st.currentSourceIndex + st.sources.length - 1) %
              st.sources.length
          inColonMode := false }) := by
  constructor
  · intro h1
    unfold removeCurrentSource
    rw [if_neg (by omega)]
  · intro hn hi
    exact removeCurrentSource_eq st hn hi

/-- C5 witness: size-1 registry keeps `sources`/index and gains the
message; size-2 registry focused at 1 ends focused at 0 on `[4]`. -/
theorem C5_witness :
    removeCurrentSource
      (⟨[7], 0, false, Option.none, false, 0, [(7, false)]⟩ :
        PagerState Nat) =
      Except.ok
        ⟨[7], 0, false, Option.some "Can\x27t remove the last buffer.",
         false, 0, [(7, false)]⟩ ∧
    removeCurrentSource
      (⟨[4, 5], 1, false, Option.none, false, 0,
        [(4, false), (5, false)]⟩ : PagerState Nat) =
      Except.ok
        ⟨[4], 0, false, Option.none, false, 0,
         [(4, false), (5, false)]⟩ := by
  constructor
  · exact (C5_remove_last_refused _).1 rfl
  · exact (C5_remove_last_refused _).2 (by decide) (by decide)

/-- C6: when the `FileSource` construction fails, `open_file` only sets
the message to the error text (registry contents, length and focus are
untouched, nothing propagates); when it succeeds, the source is appended
and focused and the message is untouched. -/
theorem C6_open_file {α : Type} [DecidableEq α] :
    (∀ (e : String) (st : PagerState α),
      openFile (Except.error e) st = { st with message := Option.some e }) ∧
    (∀ (s : α) (st : PagerState α),
      (openFile (Except.ok s) st).sources = st.sources ++ [s] ∧
      (openFile (Except.ok s) st).currentSourceIndex = st.sources.length ∧
      (openFile (Except.ok s) st).message = st.message) := by
  constructor
  · intro e st
    rfl
  · intro s st
    refine ⟨rfl, ?_, rfl⟩
    simp [openFile, addSource]

/-- C8 counterexample: on the empty registry both focus operations hit
`% 0` and raise (Python ZeroDivisionError) instead of cycling. -/
theorem C8_counterexample :
    focusNextSource (PagerState.initial (0 : Nat)) =
      Except.error "ZeroDivisionError" ∧
    focusPreviousSource (PagerState.initial (0 : Nat)) =
      Except.error "ZeroDivisionError" :=
  ⟨rfl, rfl⟩

/-- C8 (amended): on every NON-empty registry, `focusNext` sets the index
to `(i + 1) % n`, `focusPrevious` to the non-negative residue of
`(i - 1) % n`, both clear the colon flag and neither raises; on the
empty registry both raise a ZeroDivisionError. -/
theorem C8_focus_cycle {α : Type} (st : PagerState α) :
    (st.sources ≠ [] →
      focusNextSource st = Except.ok
        { st with
          currentSourceIndex :=
            (st.currentSourceIndex + 1) % st.sources.length
          inColonMode := false } ∧
      focusPreviousSource st = Except.ok
        { st with
          currentSourceIndex :=
            (st.currentSourceIndex + st.sources.length - 1) %
              st.sources.length
          inColonMode := false } ∧
      (((st.currentSourceIndex + st.sources.length - 1) %
          st.sources.length : Nat) : Int) =
        ((st.currentSourceIndex : Int) - 1) % (st.sources.length : Int)) ∧
    (st.sources = [] →
      focusNextSource st = Except.error "ZeroDivisionError" ∧
      focusPreviousSource st = Except.error "ZeroDivisionError") := by
  constructor
  · intro hne
    have hn : 0 < st.sources.length := List.length_pos.2 hne
    refine ⟨?_, ?_, pythonPredMod _ _ hn⟩
    · unfold focusNextSource
      rw [if_neg (by omega)]
    · unfold focusPreviousSource
      rw [if_neg (by omega)]
  · intro hnil
    have hn : st.sources.length = 0 := by simp [hnil]
    constructor
    · unfold focusNextSource
      rw [if_pos hn]
    · unfold focusPreviousSource
      rw [if_pos hn]

/-- C8 witness: cycling wraps on a three-source registry (2 → 0 forward,
0 → 2 backward) and clears the colon flag. -/
theorem C8_witness :
    focusNextSource
      (⟨[4, 5, 6], 2, true, Option.none, false, 0, []⟩ : PagerState Nat) =
      Except.ok ⟨[4, 5, 6], 0, false, Option.none, false, 0, []⟩ ∧
    focusPreviousSource
      (⟨[4, 5, 6], 0, true, Option.none, false, 0, []⟩ : PagerState Nat) =
      Except.ok ⟨[4, 5, 6], 2, false, Option.none, false, 0, []⟩ := by
  constructor
  · exact ((C8_focus_cycle
      (⟨[4, 5, 6], 2, true, Option.none, false, 0, []⟩ :
        PagerState Nat)).1 (by decide)).1
  · exact ((C8_focus_cycle
      (⟨[4, 5, 6], 0, true, Option.none, false, 0, []⟩ :
        PagerState Nat)).1 (by decide)).2.1

/-- C9: `display_help` is idempotent — a second call while help is
displayed changes nothing (registry, focus and all), so two calls in a
row add exactly one help source (added when the flag was clear). -/
theorem C9_display_help_idempotent {α : Type} [DecidableEq α] :
    (∀ (h1 h2 : α) (st : PagerState α),
      displayHelp h2 (displayHelp h1 st) = displayHelp h1 st) ∧
    (∀ (hs : α) (st : PagerState α), st.displayingHelp = true →
      displayHelp hs st = st) ∧
    (∀ (hs : α) (st : PagerState α), st.displayingHelp = false →
      (displayHelp hs st).sources = st.sources ++ [hs] ∧
      (displayHelp hs st).displayingHelp = true) := by
  refine ⟨?_, ?_, ?_⟩
  · intro h1 h2 st
    by_cases hd : st.displayingHelp
    · simp [displayHelp, hd]
    · simp [displayHelp, hd]
  · intro hs st hd
    simp [displayHelp, hd]
  · intro hs st hd
    simp [displayHelp, hd, addSource]

/-- C9 witness: two consecutive `displayHelp` calls from the initial
state equal one call; a call on a state already displaying help is the
identity. -/
theorem C9_witness :
    displayHelp 9 (displayHelp 9 (PagerState.initial (0 : Nat))) =
      displayHelp 9 (PagerState.initial (0 : Nat)) ∧
    displayHelp 8
      (⟨[9], 0, false, Option.none, true, 0, [(9, false)]⟩ :
        PagerState Nat) =
      ⟨[9], 0, false, Option.none, true, 0, [(9, false)]⟩ :=
  ⟨C9_display_help_idempotent.1 9 9 (PagerState.initial (0 : Nat)),
   C9_display_help_idempotent.2.1 8
     ⟨[9], 0, false, Option.none, true, 0, [(9, false)]⟩ rfl⟩

/-- C10 counterexample: on the empty registry (dummy source focused,
dummy never registered in `source_info`) the render trigger raises a
KeyError instead of completing. -/
theorem C10_counterexample :
    onRenderPager (fun _ => true) false (Option.some ⟨10, 30, 25⟩)
      (PagerState.initial (0 : Nat)) = Except.error "KeyError" :=
  rfl

/-- C10 (amended): with an empty `sources` sequence, `current_source`
returns the dummy source without raising; `_on_render`, however, raises
a KeyError there, because the dummy source is never entered into
`source_info`; and a source whose `eof()` is true (as the dummy's always
is) is never prefetched by the trigger. -/
theorem C10_empty_registry {α : Type} [DecidableEq α] :
    (∀ st : PagerState α, st.sources = [] →
      currentSource st = st.dummySource) ∧
    (∀ (eofOf : α → Bool) (followForever : Bool) (info : Option RenderInfo)
       (st : PagerState α), st.sources = [] →
      lookupInfo st.dummySource st.sourceInfo = Option.none →
      onRenderPager eofOf followForever info st = Except.error "KeyError") ∧
    (∀ (followForever waiting : Bool) (info : Option RenderInfo),
      (onRenderTrigger followForever waiting true info).2 =
        RenderAction.none) := by
  refine ⟨?_, ?_, ?_⟩
  · intro st h
    exact currentSource_nil st h
  · intro eofOf followForever info st hnil hlk
    simp only [onRenderPager]
    rw [currentSource_nil st hnil, hlk]
  · intro followForever waiting info
    cases info with
    | none => rfl
    | some i =>
      cases waiting with
      | true => simp [onRenderTrigger]
      | false => simp [onRenderTrigger]

/-- C10 witness: the initial pager state with dummy source 5. -/
theorem C10_witness :
    currentSource (PagerState.initial (5 : Nat)) = 5 ∧
    onRenderPager (fun _ => true) true Option.none
      (PagerState.initial (5 : Nat)) = Except.error "KeyError" ∧
    (onRenderTrigger true false true (Option.some ⟨1, 2, 3⟩)).2 =
      RenderAction.none :=
  ⟨(@C10_empty_registry Nat _).1 (PagerState.initial (5 : Nat)) rfl,
   (@C10_empty_registry Nat _).2.1 (fun _ => true) true Option.none
     (PagerState.initial (5 : Nat)) rfl rfl,
   (@C10_empty_registry Nat _).2.2 true false (Option.some ⟨1, 2, 3⟩)⟩

end Pypager
